import Mathlib

/-!
Shallow embedding of the computation and validation core of the `anytest`
statistics application (files `src/validator.py` and `src/analyzer.py`).

Numbers are modelled by `ℚ` wherever the Python code only performs field
operations and comparisons on floats, and by `ℝ` where a square root or an
external special function (scipy's Student-t quantile) enters.  Python
exceptions (`IndexError`, `ZeroDivisionError`, `TypeError`, `ValueError`)
are modelled by `Option`/`Except` results: `none`/`.error` marks an input on
which the Python function raises.  External library calls (scipy's
`stats.t.ppf`, `stats.ttest_ind`, `stats.ttest_rel`) are taken as explicit
function parameters, since their implementations are not part of the
repository.
-/

namespace AnyTest

/-! ### Validator: `DataValidator.validate_input` (validator.py lines 7-36) -/

/-- The ASCII whitespace characters recognized by Python's `str.split()` and
`str.isspace()` (the model is restricted to ASCII text). -/
def pyIsSpace (c : Char) : Bool :=
  c = ' ' || c = '\t' || c = '\n' || c = '\r' || c = '\x0b' || c = '\x0c'

/-- Models Python `text.split()`: split on runs of whitespace, dropping empty
pieces. -/
def pySplit : List Char → List String
  | [] => []
  | c :: cs =>
    if pyIsSpace c then pySplit cs
    else
      String.mk (c :: cs.takeWhile (fun d => !pyIsSpace d)) ::
        pySplit (cs.dropWhile (fun d => !pyIsSpace d))
termination_by l => l.length
decreasing_by
  · simp only [List.length_cons]
    omega
  · simp only [List.length_cons]
    have := (List.dropWhile_sublist (l := cs) (fun d => !pyIsSpace d)).length_le
    omega

/-- Numeric value of a digit string (most significant first). -/
def digitsVal (l : List Char) : ℕ :=
  l.foldl (fun a c => a * 10 + (c.toNat - 48)) 0

/-- Consume an optional leading sign; returns `(negative, rest)`. -/
def parseSign : List Char → Bool × List Char
  | [] => (false, [])
  | c :: r =>
    if c = '-' then (true, r)
    else if c = '+' then (false, r)
    else (false, c :: r)

/-- Models Python `float(token)` on the finite decimal literals produced by
splitting numeric text: optional sign, an integer part and/or a fractional
part (at least one digit in total), and an optional exponent part.  The
non-finite spellings `inf`/`nan` and digit-group underscores, which have no
rational counterpart or are irrelevant to the claims, are outside the model,
as is surrounding whitespace (the tokens come from `split()`). -/
def parseFloat (s : String) : Option ℚ :=
  let p1 := parseSign s.toList
  let intDigits := p1.2.takeWhile Char.isDigit
  let r2 := p1.2.dropWhile Char.isDigit
  let fracAndRest : List Char × List Char :=
    match r2 with
    | [] => ([], [])
    | c :: r =>
      if c = '.' then (r.takeWhile Char.isDigit, r.dropWhile Char.isDigit)
      else ([], c :: r)
  let fracDigits := fracAndRest.1
  let r3 := fracAndRest.2
  if intDigits = [] ∧ fracDigits = [] then none
  else
    let mant : ℚ := (digitsVal intDigits : ℚ) + (digitsVal fracDigits : ℚ) / 10 ^ fracDigits.length
    let signed : ℚ := if p1.1 then -mant else mant
    match r3 with
    | [] => some signed
    | e :: r =>
      if e = 'e' ∨ e = 'E' then
        let p2 := parseSign r
        let expDigits := p2.2.takeWhile Char.isDigit
        let r5 := p2.2.dropWhile Char.isDigit
        if expDigits = [] ∨ r5 ≠ [] then none
        else if p2.1 then some (signed / 10 ^ digitsVal expDigits)
        else some (signed * 10 ^ digitsVal expDigits)
      else none

/-- Outcome of `DataValidator.validate_input`.  The three Python returns
`(False, None, msg)` are told apart by the message: `emptyInput` is
"データが入力されていません。", `noValidNumbers` is
"有効な数値が入力されていません。" (dead code, proved unreachable below),
`parseError` is "無効な入力があります。数値のみを入力してください。". -/
inductive ValidateInputResult where
  | emptyInput
  | noValidNumbers
  | parseError
  | ok (numbers : List ℚ)
deriving DecidableEq

/-- Models the comprehension `[float(x) for x in values]`: parse each token
in order; a `ValueError` on any token aborts the whole conversion. -/
def parseFloatList : List String → Option (List ℚ)
  | [] => some []
  | t :: ts =>
    match parseFloat t, parseFloatList ts with
    | some q, some qs => some (q :: qs)
    | _, _ => none

/-- Embedding of `DataValidator.validate_input` (validator.py lines 7-36): reject empty or
all-whitespace text, split on whitespace, parse every token as a float
(a `ValueError` on any token yields the parse-error return). -/
def validate_input (text : String) : ValidateInputResult :=
  if text.toList.all pyIsSpace then .emptyInput
  else
    match parseFloatList (pySplit text.toList) with
    | none => .parseError
    | some numbers => if numbers = [] then .noValidNumbers else .ok numbers

/-! ### Validator: `validate_error_propagation_inputs` (validator.py 66-114) -/

/-- First character class of the identifier pattern `[a-zA-Z_]`. -/
def isIdentStartChar (c : Char) : Bool :=
  c.isAlpha || c = '_'

/-- Continuation character class `[a-zA-Z0-9_]`. -/
def isIdentChar (c : Char) : Bool :=
  isIdentStartChar c || c.isDigit

/-- Models `re.compile(r'^[a-zA-Z_][a-zA-Z0-9_]*$').match(var)` as a full
match: nonempty, letter-or-underscore first, identifier characters after.
(Python's `$` would additionally allow one trailing newline; names with
embedded newlines are outside the model.) -/
def matchesIdentPattern (s : String) : Bool :=
  match s.toList with
  | [] => false
  | c :: cs => isIdentStartChar c && cs.all isIdentChar

/-- Models `re.findall(r'[a-zA-Z_][a-zA-Z0-9_]*', text)`: scan left to right;
at each position where an identifier may start, take the maximal identifier
token and continue after it. -/
def findIdentifierTokens : List Char → List String
  | [] => []
  | c :: cs =>
    if isIdentStartChar c then
      String.mk (c :: cs.takeWhile isIdentChar) ::
        findIdentifierTokens (cs.dropWhile isIdentChar)
    else findIdentifierTokens cs
termination_by l => l.length
decreasing_by
  · simp only [List.length_cons]
    have := (List.dropWhile_sublist (l := cs) isIdentChar).length_le
    omega
  · simp only [List.length_cons]
    omega

/-- The six failure messages of `validate_error_propagation_inputs`, in the
order the Python code tests them. -/
inductive EPValidationError where
  | missingField
  | lengthMismatch
  | invalidVariableName (v : String)
  | nonPositiveUncertainty
  | undefinedVariable
  | unbalancedParentheses
deriving DecidableEq

/-- Embedding of `DataValidator.validate_error_propagation_inputs` (validator.py lines
66-114).  Returns `none` for the success `(True, None)` and `some e` for a
failure `(False, message)`.  The `undefinedVariable` message's variable list
(a Python set with unspecified iteration order) is not carried. -/
def validate_error_propagation_inputs (vars : List String) (values : List ℚ)
    (errors : List ℚ) (function_str : String) : Option EPValidationError :=
  if vars = [] ∨ values = [] ∨ errors = [] ∨ function_str = "" then
    some .missingField
  else if ¬(vars.length = values.length ∧ values.length = errors.length) then
    some .lengthMismatch
  else
    match vars.find? (fun v => !matchesIdentPattern v) with
    | some v => some (.invalidVariableName v)
    | none =>
      if errors.any (fun e => decide (e ≤ 0)) then some .nonPositiveUncertainty
      else if (findIdentifierTokens function_str.toList).any
          (fun t => !vars.contains t) then some .undefinedVariable
      else if function_str.toList.count '(' ≠ function_str.toList.count ')' then
        some .unbalancedParentheses
      else none

/-! ### Validator: `split_data_for_ttest` (validator.py lines 116-127) -/

/-- Embedding of `DataValidator.split_data_for_ttest`: `data[:mid], data[mid:]` with
`mid = len(data) // 2`. -/
def split_data_for_ttest (data : List ℚ) : List ℚ × List ℚ :=
  let mid := data.length / 2
  (data.take mid, data.drop mid)

/-! ### Analyzer: `StatisticalAnalyzer.perform_qtest` (analyzer.py 8-48) -/

/-- Result dictionary of `perform_qtest` (`is_outlier` is the Python int
1 or 0). -/
structure QtestResult where
  q_statistic : ℚ
  q_critical : ℚ
  is_outlier : ℕ
deriving DecidableEq

/-- The fixed 95%-confidence critical value dictionary `q_critical_values`
of analyzer.py lines 33-36. -/
def q_critical_values : List (ℕ × ℚ) :=
  [(3, 97/100), (4, 829/1000), (5, 71/100), (6, 625/1000),
   (7, 568/1000), (8, 526/1000), (9, 493/1000), (10, 466/1000)]

/-- Embedding of `StatisticalAnalyzer.perform_qtest` (analyzer.py lines 8-48).  `sorted`
is modelled by the stable ascending `insertionSort`.  `none` models a raise:
`IndexError` at `sorted_data[1]` for samples of size < 2, `ZeroDivisionError`
when the range `|max - min|` is zero, and the `TypeError` of comparing the
statistic against the `None` produced by `q_critical_values.get` for sizes
outside 3..10 (i.e. size 2 here). -/
def perform_qtest (data : List ℚ) : Option QtestResult :=
  let sorted_data := data.insertionSort (· ≤ ·)
  let n := sorted_data.length
  match sorted_data[0]?, sorted_data[1]?, sorted_data[n-1]?, sorted_data[n-2]? with
  | some x0, some x1, some xlast, some xprev =>
    if |xlast - x0| = 0 then none
    else
      let q_stat := max (|x1 - x0| / |xlast - x0|) (|xlast - xprev| / |xlast - x0|)
      match q_critical_values.lookup (min n 10) with
      | some q_critical =>
        some { q_statistic := q_stat, q_critical := q_critical,
               is_outlier := if q_stat > q_critical then 1 else 0 }
      | none => none
  | _, _, _, _ => none

/-! ### Analyzer: `calculate_confidence_interval` (analyzer.py lines 51-87) -/

/-- Result dictionary of `calculate_confidence_interval`. -/
structure ConfidenceIntervalResult where
  mean : ℝ
  std : ℝ
  lower : ℝ
  upper : ℝ
  confidence_level : ℝ

/-- Embedding of `StatisticalAnalyzer.calculate_confidence_interval` (analyzer.py lines
51-87).  `tppf` is scipy's `stats.t.ppf` (two-sided Student-t quantile),
an external library function passed in as a parameter; the code calls it as
`stats.t.ppf((1 + confidence_level) / 2, n - 1)`.  `np.std(data, ddof=1)` is
the unbiased sample standard deviation `sqrt(Σ(x-mean)² / (n-1))`.  For
`n = 1` NumPy emits a warning and yields NaN from `0/0`; real division by
zero yields `0` here instead, so single-element samples sit outside the
faithful fragment of this model (the claims below never rely on them). -/
noncomputable def calculate_confidence_interval (tppf : ℝ → ℤ → ℝ)
    (data : List ℝ) (confidence_level : ℝ) : ConfidenceIntervalResult :=
  let n := data.length
  let mean := data.sum / n
  let std := Real.sqrt ((data.map (fun x => (x - mean) ^ 2)).sum / ((n : ℝ) - 1))
  let t_value := tppf ((1 + confidence_level) / 2) ((n : ℤ) - 1)
  let se := std / Real.sqrt n
  let margin_of_error := t_value * se
  { mean := mean, std := std, lower := mean - margin_of_error,
    upper := mean + margin_of_error, confidence_level := confidence_level }

/-! ### Analyzer: `calculate_error_propagation` (analyzer.py lines 90-151) -/

/-- Symbolic expressions over named variables: the fragment of sympy terms
the error-propagation routine manipulates (constants, variables, sums,
products, natural powers). -/
inductive SymExpr where
  | const (c : ℚ)
  | var (v : String)
  | add (a b : SymExpr)
  | mul (a b : SymExpr)
  | pow (a : SymExpr) (k : ℕ)
deriving DecidableEq

/-- Substitution plus numeric evaluation, modelling
`float(expr.subs(var_dict))`: `none` when a free variable is unbound (where
the Python `float(...)` of a still-symbolic value raises `TypeError`). -/
def SymExpr.evalWith (env : String → Option ℚ) : SymExpr → Option ℚ
  | .const c => some c
  | .var v => env v
  | .add a b =>
    match a.evalWith env, b.evalWith env with
    | some x, some y => some (x + y)
    | _, _ => none
  | .mul a b =>
    match a.evalWith env, b.evalWith env with
    | some x, some y => some (x * y)
    | _, _ => none
  | .pow a k => (a.evalWith env).map (fun x => x ^ k)

/-- Symbolic partial differentiation with respect to the variable `x`,
modelling sympy's `diff(func, symbol)` on this fragment. -/
def SymExpr.diff (x : String) : SymExpr → SymExpr
  | .const _ => .const 0
  | .var v => if v = x then .const 1 else .const 0
  | .add a b => .add (a.diff x) (b.diff x)
  | .mul a b => .add (.mul (a.diff x) b) (.mul a (b.diff x))
  | .pow a k => .mul (.mul (.const k) (.pow a (k - 1))) (a.diff x)

/-- The environment `var_dict = dict(zip(symbol_list, values))`. -/
def envOfBindings (vars : List String) (values : List ℚ) : String → Option ℚ :=
  fun v => (vars.zip values).lookup v

/-- Result dictionary of `calculate_error_propagation`.  The symbolic forms
(`original_function`, the derivative of each variable) are retained as
`SymExpr` terms rather than sympy's printed strings.  `relative_error` is
`none` in the case where the Python code stores `float('inf')`
(function value exactly zero). -/
structure ErrorPropagationResult where
  function_value : ℚ
  propagated_error : ℝ
  relative_error : Option ℝ
  original_function : SymExpr
  derivatives : List (String × SymExpr)

/-- The loop of analyzer.py lines 124-137: for each `(variable, uncertainty)`
pair of `zip(symbol_list, errors)`, the square term
`(∂f/∂v evaluated at the values × uncertainty)²`, in order. -/
def squaredErrorTerms (func : SymExpr) (env : String → Option ℚ) :
    List (String × ℚ) → Option (List ℚ)
  | [] => some []
  | p :: ps =>
    match ((func.diff p.1).evalWith env).map (fun d => (d * p.2) ^ 2),
        squaredErrorTerms func env ps with
    | some t, some ts => some (t :: ts)
    | _, _ => none

/-- Embedding of `StatisticalAnalyzer.calculate_error_propagation` (analyzer.py lines
90-151): evaluate the function at the values, then for each
`(variable, uncertainty)` pair accumulate `(∂f/∂v · uncertainty)²` and take
the square root of the total.  `none` models the `TypeError` raised by
`float(...)` on an expression left symbolic by an unbound variable. -/
noncomputable def calculate_error_propagation (vars : List String)
    (values : List ℚ) (errors : List ℚ) (func : SymExpr) :
    Option ErrorPropagationResult :=
  let env := envOfBindings vars values
  match func.evalWith env with
  | none => none
  | some function_value =>
    match squaredErrorTerms func env (vars.zip errors) with
    | none => none
    | some square_terms =>
      let total : ℚ := square_terms.sum
      some { function_value := function_value,
             propagated_error := Real.sqrt (total : ℝ),
             relative_error :=
               if function_value ≠ 0 then
                 some (Real.sqrt (total : ℝ) / |(function_value : ℝ)| * 100)
               else none,
             original_function := func,
             derivatives := (vars.zip errors).map (fun p => (p.1, func.diff p.1)) }

/-! ### Analyzer: `perform_ttest` (analyzer.py lines 154-197) -/

/-- Result dictionary of `perform_ttest`. -/
structure TtestResult where
  statistic : ℚ
  pvalue : ℚ
  dof : ℤ
  mean1 : ℚ
  mean2 : ℚ
  test_type : String
deriving DecidableEq

/-- The two `ValueError`s `perform_ttest` can raise. -/
inductive TtestError where
  | sizeMismatch
  | invalidTestType
deriving DecidableEq

/-- Embedding of `StatisticalAnalyzer.perform_ttest` (analyzer.py lines 154-197).
`ttest_ind` and `ttest_rel` are scipy's statistic/p-value computations,
external library functions passed in as parameters.  `np.mean` of an empty
array is NaN in Python; rational division by zero yields `0` here, which the
claims never rely on.  `.error` models the raised `ValueError`s. -/
def perform_ttest (ttest_ind ttest_rel : List ℚ → List ℚ → ℚ × ℚ)
    (group1 group2 : List ℚ) (test_type : String) :
    Except TtestError TtestResult :=
  let mean1 := group1.sum / group1.length
  let mean2 := group2.sum / group2.length
  if test_type = "independent" then
    let sp := ttest_ind group1 group2
    .ok { statistic := sp.1, pvalue := sp.2,
          dof := (group1.length : ℤ) + group2.length - 2,
          mean1 := mean1, mean2 := mean2, test_type := test_type }
  else if test_type = "paired" then
    if group1.length ≠ group2.length then .error .sizeMismatch
    else
      let sp := ttest_rel group1 group2
      .ok { statistic := sp.1, pvalue := sp.2,
            dof := (group1.length : ℤ) - 1,
            mean1 := mean1, mean2 := mean2, test_type := test_type }
  else .error .invalidTestType

/-! ### Analyzer: `format_results` (analyzer.py lines 199-253) -/

/-- Left-pad a digit string with zeros to width `k`. -/
def padZeros (s : String) (k : ℕ) : String :=
  String.mk (List.replicate (k - s.length) '0') ++ s

/-- Fixed-point rendering of a rational with `prec` digits after the point,
modelling Python's `%.Nf` format (the claims never depend on the digits
themselves, only on which branch produced the surrounding text). -/
def formatFixed (q : ℚ) (prec : ℕ) : String :=
  let scaled := round (q * (10 : ℚ) ^ prec)
  let sign := if scaled < 0 then "-" else ""
  let n := scaled.natAbs
  sign ++ toString (n / 10 ^ prec) ++ "." ++ padZeros (toString (n % 10 ^ prec)) prec

/-- Display fields of an error-propagation result as the formatter consumes
them (`derivatives` as (variable, printed expression) pairs). -/
structure ErrorPropagationDisplay where
  function_value : ℚ
  propagated_error : ℚ
  relative_error : ℚ
  original_function : String
  derivatives : List (String × String)
deriving DecidableEq

/-- Display fields of a confidence-interval result as the formatter consumes
them.  (Rendering is modelled over `ℚ` field values: printing is a
computable operation, while `calculate_confidence_interval`'s outputs live
in `ℝ`; the formatter claims only concern branch selection and labels.) -/
structure ConfidenceIntervalDisplay where
  mean : ℚ
  std : ℚ
  lower : ℚ
  upper : ℚ
  confidence_level : ℚ
deriving DecidableEq

/-- The `results` dictionary handed to `format_results`, tagged by which
operation produced it. -/
inductive FormatInput where
  | ttest (r : TtestResult)
  | qtest (r : QtestResult)
  | error_propagation (r : ErrorPropagationDisplay)
  | confidence_interval (r : ConfidenceIntervalDisplay)
deriving DecidableEq

/-- Embedding of `StatisticalAnalyzer.format_results` (analyzer.py lines 199-253), as the
list of output lines (the Python code joins them with `"\n"` inside one
f-string).  `none` models the `KeyError` raised when the `results`
dictionary does not hold the fields the chosen branch reads.  Note that the
branch on `test_type` has no error case: any tag other than the three
recognized ones falls into the trailing `else` (confidence-interval)
branch. -/
def format_results_lines (results : FormatInput) (test_type : String) :
    Option (List String) :=
  if test_type = "ttest" then
    match results with
    | .ttest r =>
      some [(if r.test_type = "independent" then "独立2標本t検定" else "対応2標本t検定") ++ "結果:",
            "第1群平均 = " ++ formatFixed r.mean1 4,
            "第2群平均 = " ++ formatFixed r.mean2 4,
            "検定統計量 (t値) = " ++ formatFixed r.statistic 4,
            "自由度 = " ++ toString r.dof,
            "p値 = " ++ formatFixed r.pvalue 4,
            "判定 (α=0.05): " ++ (if r.pvalue < 5/100 then "有意" else "非有意")]
    | _ => none
  else if test_type = "qtest" then
    match results with
    | .qtest r =>
      some ["Q検定結果:",
            "Q統計量 = " ++ formatFixed r.q_statistic 4,
            "棄却限界値 = " ++ formatFixed r.q_critical 4,
            "判定: " ++ (if r.is_outlier ≠ 0 then "外れ値あり" else "外れ値なし")]
    | _ => none
  else if test_type = "error_propagation" then
    match results with
    | .error_propagation r =>
      some (["誤差伝播の計算結果:",
             "元の関数: " ++ r.original_function,
             "",
             "偏微分:"] ++
            r.derivatives.map (fun d => "diff f /diff " ++ d.1 ++ " = " ++ d.2) ++
            ["",
             "関数値 = " ++ formatFixed r.function_value 6,
             "伝播誤差 = " ++ formatFixed r.propagated_error 6,
             "相対誤差 = " ++ formatFixed r.relative_error 2 ++ "%"])
    | _ => none
  else
    match results with
    | .confidence_interval r =>
      some ["信頼区間の計算結果:",
            "平均値 = " ++ formatFixed r.mean 4,
            "標準偏差 = " ++ formatFixed r.std 4,
            formatFixed (r.confidence_level * 100) 1 ++ "%信頼区間:",
            "下限 = " ++ formatFixed r.lower 4,
            "上限 = " ++ formatFixed r.upper 4]
    | _ => none

/-- The function `format_results` as the single joined string the Python code returns. -/
def format_results (results : FormatInput) (test_type : String) :
    Option String :=
  (format_results_lines results test_type).map (String.intercalate "\n")

/-! ### Spec-side definitions, written from the specification's words -/

/-- The Q statistic as the claim words it: on the ascending-sorted sample,
`max(|x[1]−x[0]|, |x[n−1]−x[n−2]|) / |x[n−1]−x[0]|`. -/
def qStatisticSpec (data : List ℚ) : ℚ :=
  let s := data.insertionSort (· ≤ ·)
  let n := s.length
  max |s[1]?.getD 0 - s[0]?.getD 0| |s[n-1]?.getD 0 - s[n-2]?.getD 0| /
    |s[n-1]?.getD 0 - s[0]?.getD 0|

/-- The fixed critical-value table as the claim words it:
`{3:0.970, 4:0.829, 5:0.710, 6:0.625, 7:0.568, 8:0.526, 9:0.493, 10:0.466}`
(0 off the table, which the claims never consult). -/
def qCriticalTable : ℕ → ℚ
  | 3 => 97/100
  | 4 => 829/1000
  | 5 => 71/100
  | 6 => 625/1000
  | 7 => 568/1000
  | 8 => 526/1000
  | 9 => 493/1000
  | 10 => 466/1000
  | _ => 0

/-- The claim's expression `"x**2 + 2*x*y + y**2"` as the symbolic term
sympy parses it into. -/
def exprC3 : SymExpr :=
  .add (.add (.pow (.var "x") 2) (.mul (.mul (.const 2) (.var "x")) (.var "y")))
    (.pow (.var "y") 2)

/-- Check 1 of the claim: none of the four inputs is empty. -/
def epMissingFieldOK (vars : List String) (values errors : List ℚ)
    (function_str : String) : Prop :=
  vars ≠ [] ∧ values ≠ [] ∧ errors ≠ [] ∧ function_str ≠ ""

/-- Check 2 of the claim: the three parallel lists have equal length. -/
def epLengthsOK (vars : List String) (values errors : List ℚ) : Prop :=
  vars.length = values.length ∧ values.length = errors.length

/-- Check 3 of the claim: every name matches the identifier pattern. -/
def epNamesOK (vars : List String) : Prop :=
  ∀ v ∈ vars, matchesIdentPattern v = true

/-- Check 4 of the claim: every uncertainty is strictly positive. -/
def epUncertaintiesOK (errors : List ℚ) : Prop :=
  ∀ e ∈ errors, 0 < e

/-- Check 5 of the claim: every identifier token of the expression text is a
declared variable. -/
def epVarsDefinedOK (vars : List String) (function_str : String) : Prop :=
  ∀ t ∈ findIdentifierTokens function_str.toList, t ∈ vars

/-- Check 6 of the claim: the counts of `(` and `)` agree. -/
def epParensOK (function_str : String) : Prop :=
  function_str.toList.count '(' = function_str.toList.count ')'

/-! ### Theorems -/

/-- Check 1 against the Boolean condition the code tests. -/
theorem epMissingFieldOK_iff (vars : List String) (values errors : List ℚ)
    (function_str : String) :
    epMissingFieldOK vars values errors function_str ↔
      ¬(vars = [] ∨ values = [] ∨ errors = [] ∨ function_str = "") := by
  simp [epMissingFieldOK, not_or]

/-- Check 3 against the `find?` the code runs. -/
theorem epNamesOK_iff (vars : List String) :
    epNamesOK vars ↔ vars.find? (fun v => !matchesIdentPattern v) = none := by
  simp [epNamesOK, List.find?_eq_none]

/-- Check 4 against the `any` the code runs. -/
theorem epUncertaintiesOK_iff (errors : List ℚ) :
    epUncertaintiesOK errors ↔ (errors.any fun e => decide (e ≤ 0)) = false := by
  simp [epUncertaintiesOK, List.any_eq_false]

/-- Check 5 against the `any` the code runs. -/
theorem epVarsDefinedOK_iff (vars : List String) (function_str : String) :
    epVarsDefinedOK vars function_str ↔
      ((findIdentifierTokens function_str.toList).any fun t => !vars.contains t) = false := by
  simp [epVarsDefinedOK, List.any_eq_false]

/-- C5: `validate_error_propagation_inputs` runs its six checks in the fixed
order missing-field, length-mismatch, invalid-variable-name,
non-positive-uncertainty, undefined-variable, unbalanced-parentheses,
reports the failure of the first check that fails, and succeeds exactly when
all six pass. -/
theorem validate_error_propagation_inputs_spec (vars : List String)
    (values errors : List ℚ) (function_str : String) :
    (validate_error_propagation_inputs vars values errors function_str = none ↔
      (epMissingFieldOK vars values errors function_str ∧
        epLengthsOK vars values errors ∧ epNamesOK vars ∧
        epUncertaintiesOK errors ∧ epVarsDefinedOK vars function_str ∧
        epParensOK function_str)) ∧
    (¬ epMissingFieldOK vars values errors function_str →
      validate_error_propagation_inputs vars values errors function_str =
        some .missingField) ∧
    (epMissingFieldOK vars values errors function_str →
      ¬ epLengthsOK vars values errors →
      validate_error_propagation_inputs vars values errors function_str =
        some .lengthMismatch) ∧
    (epMissingFieldOK vars values errors function_str →
      epLengthsOK vars values errors → ¬ epNamesOK vars →
      ∃ v ∈ vars, matchesIdentPattern v = false ∧
        validate_error_propagation_inputs vars values errors function_str =
          some (.invalidVariableName v)) ∧
    (epMissingFieldOK vars values errors function_str →
      epLengthsOK vars values errors → epNamesOK vars →
      ¬ epUncertaintiesOK errors →
      validate_error_propagation_inputs vars values errors function_str =
        some .nonPositiveUncertainty) ∧
    (epMissingFieldOK vars values errors function_str →
      epLengthsOK vars values errors → epNamesOK vars →
      epUncertaintiesOK errors → ¬ epVarsDefinedOK vars function_str →
      validate_error_propagation_inputs vars values errors function_str =
        some .undefinedVariable) ∧
    (epMissingFieldOK vars values errors function_str →
      epLengthsOK vars values errors → epNamesOK vars →
      epUncertaintiesOK errors → epVarsDefinedOK vars function_str →
      ¬ epParensOK function_str →
      validate_error_propagation_inputs vars values errors function_str =
        some .unbalancedParentheses) := by
  by_cases h1 : vars = [] ∨ values = [] ∨ errors = [] ∨ function_str = ""
  · have hv : validate_error_propagation_inputs vars values errors function_str =
        some .missingField := by
      unfold validate_error_propagation_inputs
      rw [if_pos h1]
    have hep1 : ¬ epMissingFieldOK vars values errors function_str :=
      fun h => (epMissingFieldOK_iff vars values errors function_str).mp h h1
    refine ⟨?_, fun _ => hv, ?_, ?_, ?_, ?_, ?_⟩
    · rw [hv]
      exact ⟨fun h => absurd h (by simp), fun h => absurd h.1 hep1⟩
    all_goals intro h₁; exact absurd h₁ hep1
  · have hep1 : epMissingFieldOK vars values errors function_str :=
      (epMissingFieldOK_iff vars values errors function_str).mpr h1
    by_cases h2 : vars.length = values.length ∧ values.length = errors.length
    · have hep2 : epLengthsOK vars values errors := h2
      cases hfind : vars.find? (fun v => !matchesIdentPattern v) with
      | some v =>
        have hv : validate_error_propagation_inputs vars values errors function_str =
            some (.invalidVariableName v) := by
          unfold validate_error_propagation_inputs
          rw [if_neg h1, if_neg (not_not_intro h2), hfind]
        have hep3 : ¬ epNamesOK vars := by
          rw [epNamesOK_iff, hfind]
          simp
        refine ⟨?_, fun h => absurd hep1 h, fun _ h => absurd hep2 h, ?_, ?_, ?_, ?_⟩
        · rw [hv]
          exact ⟨fun h => absurd h (by simp), fun h => absurd h.2.2.1 hep3⟩
        · refine fun _ _ _ => ⟨v, List.mem_of_find?_eq_some hfind, ?_, hv⟩
          have := List.find?_some hfind
          simpa using this
        all_goals intro _ _ h₃; exact absurd h₃ hep3
      | none =>
        have hep3 : epNamesOK vars := (epNamesOK_iff vars).mpr hfind
        by_cases h4 : (errors.any fun e => decide (e ≤ 0)) = true
        · have hv : validate_error_propagation_inputs vars values errors function_str =
              some .nonPositiveUncertainty := by
            unfold validate_error_propagation_inputs
            rw [if_neg h1, if_neg (not_not_intro h2), hfind]
            simp only [h4, if_true]
          have hep4 : ¬ epUncertaintiesOK errors := by
            rw [epUncertaintiesOK_iff, h4]
            simp
          refine ⟨?_, fun h => absurd hep1 h,
            fun _ h => absurd hep2 h, fun _ _ h => absurd hep3 h, fun _ _ _ _ => hv,
            ?_, ?_⟩
          · rw [hv]
            exact ⟨fun h => absurd h (by simp), fun h => absurd h.2.2.2.1 hep4⟩
          all_goals intro _ _ _ h₄; exact absurd h₄ hep4
        · have h4' : (errors.any fun e => decide (e ≤ 0)) = false := by
            simpa using h4
          have hep4 : epUncertaintiesOK errors := (epUncertaintiesOK_iff errors).mpr h4'
          by_cases h5 : ((findIdentifierTokens function_str.toList).any
              fun t => !vars.contains t) = true
          · have hv : validate_error_propagation_inputs vars values errors function_str =
                some .undefinedVariable := by
              unfold validate_error_propagation_inputs
              rw [if_neg h1, if_neg (not_not_intro h2), hfind]
              simp only [h4, h5, if_false, if_true, Bool.false_eq_true]
            have hep5 : ¬ epVarsDefinedOK vars function_str := by
              rw [epVarsDefinedOK_iff, h5]
              simp
            refine ⟨?_, fun h => absurd hep1 h, fun _ h => absurd hep2 h,
              fun _ _ h => absurd hep3 h, fun _ _ _ h => absurd hep4 h,
              fun _ _ _ _ _ => hv, fun _ _ _ _ h₅ => absurd h₅ hep5⟩
            rw [hv]
            exact ⟨fun h => absurd h (by simp), fun h => absurd h.2.2.2.2.1 hep5⟩
          · have h5' : ((findIdentifierTokens function_str.toList).any
                fun t => !vars.contains t) = false := by
              simpa using h5
            have hep5 : epVarsDefinedOK vars function_str :=
              (epVarsDefinedOK_iff vars function_str).mpr h5'
            by_cases h6 : function_str.toList.count '(' = function_str.toList.count ')'
            · have hv : validate_error_propagation_inputs vars values errors function_str =
                  none := by
                unfold validate_error_propagation_inputs
                rw [if_neg h1, if_neg (not_not_intro h2), hfind]
                simp only [h4, h5, Bool.false_eq_true, if_false]
                rw [if_neg (not_not_intro h6)]
              exact ⟨by rw [hv]; exact ⟨fun _ => ⟨hep1, hep2, hep3, hep4, hep5, h6⟩,
                  fun _ => rfl⟩,
                fun h => absurd hep1 h, fun _ h => absurd hep2 h,
                fun _ _ h => absurd hep3 h, fun _ _ _ h => absurd hep4 h,
                fun _ _ _ _ h => absurd hep5 h, fun _ _ _ _ _ h => absurd h6 h⟩
            · have hv : validate_error_propagation_inputs vars values errors function_str =
                  some .unbalancedParentheses := by
                unfold validate_error_propagation_inputs
                rw [if_neg h1, if_neg (not_not_intro h2), hfind]
                simp only [h4, h5, Bool.false_eq_true, if_false]
                rw [if_pos h6]
              exact ⟨by rw [hv]; exact ⟨fun h => absurd h (by simp),
                  fun h => absurd h.2.2.2.2.2 h6⟩,
                fun h => absurd hep1 h, fun _ h => absurd hep2 h,
                fun _ _ h => absurd hep3 h, fun _ _ _ h => absurd hep4 h,
                fun _ _ _ _ h => absurd hep5 h, fun _ _ _ _ _ _ => hv⟩
    · have hep2 : ¬ epLengthsOK vars values errors := h2
      have hv : validate_error_propagation_inputs vars values errors function_str =
          some .lengthMismatch := by
        unfold validate_error_propagation_inputs
        rw [if_neg h1, if_pos h2]
      refine ⟨?_, fun h => absurd hep1 h, fun _ _ => hv, ?_, ?_, ?_, ?_⟩
      · rw [hv]
        exact ⟨fun h => absurd h (by simp), fun h => absurd h.2.1 hep2⟩
      all_goals intro _ h₂; exact absurd h₂ hep2

/-- Witness for C5: each of the first three checks failing on a concrete
input, in order. -/
theorem validate_error_propagation_inputs_spec_witness :
    validate_error_propagation_inputs [] [] [] "" = some .missingField ∧
    validate_error_propagation_inputs ["x"] [1] [] "x" = some .missingField ∧
    validate_error_propagation_inputs ["x"] [1, 2] [3] "x" = some .lengthMismatch ∧
    validate_error_propagation_inputs ["2x"] [1] [1] "x" =
      some (.invalidVariableName "2x") ∧
    validate_error_propagation_inputs ["x"] [1] [0] "x" =
      some .nonPositiveUncertainty ∧
    validate_error_propagation_inputs ["x"] [2] [1] "x + z" =
      some .undefinedVariable ∧
    validate_error_propagation_inputs ["x"] [2] [1] "(x" =
      some .unbalancedParentheses ∧
    validate_error_propagation_inputs ["x"] [2] [1] "(x)" = none := by
  refine ⟨?_, ?_, ?_, ?_, ?_, ?_, ?_, ?_⟩
  · exact (validate_error_propagation_inputs_spec [] [] [] "").2.1
      (by simp [epMissingFieldOK])
  · exact (validate_error_propagation_inputs_spec ["x"] [1] [] "x").2.1
      (by simp [epMissingFieldOK])
  · exact (validate_error_propagation_inputs_spec ["x"] [1, 2] [3] "x").2.2.1
      (by simp [epMissingFieldOK]) (by simp [epLengthsOK])
  · have h := (validate_error_propagation_inputs_spec ["2x"] [1] [1] "x").2.2.2.1
      (by simp [epMissingFieldOK]) (by simp [epLengthsOK])
      (by simp [epNamesOK, matchesIdentPattern, isIdentStartChar])
    obtain ⟨v, hva, _, hveq⟩ := h
    have hv2x : v = "2x" := by simpa using hva
    subst hv2x
    exact hveq
  · exact (validate_error_propagation_inputs_spec ["x"] [1] [0] "x").2.2.2.2.1
      (by simp [epMissingFieldOK]) (by simp [epLengthsOK])
      (by simp [epNamesOK, matchesIdentPattern, isIdentStartChar])
      (by simp [epUncertaintiesOK])
  · exact (validate_error_propagation_inputs_spec ["x"] [2] [1] "x + z").2.2.2.2.2.1
      (by simp [epMissingFieldOK]) (by simp [epLengthsOK])
      (by simp [epNamesOK, matchesIdentPattern, isIdentStartChar])
      (by norm_num [epUncertaintiesOK])
      (by simp +decide [epVarsDefinedOK, findIdentifierTokens])
  · exact (validate_error_propagation_inputs_spec ["x"] [2] [1] "(x").2.2.2.2.2.2
      (by simp [epMissingFieldOK]) (by simp [epLengthsOK])
      (by simp [epNamesOK, matchesIdentPattern, isIdentStartChar])
      (by norm_num [epUncertaintiesOK])
      (by simp +decide [epVarsDefinedOK, findIdentifierTokens])
      (by simp +decide [epParensOK])
  · exact (validate_error_propagation_inputs_spec ["x"] [2] [1] "(x)").1.mpr
      ⟨by simp [epMissingFieldOK], by simp [epLengthsOK],
       by simp [epNamesOK, matchesIdentPattern, isIdentStartChar],
       by norm_num [epUncertaintiesOK],
       by simp +decide [epVarsDefinedOK, findIdentifierTokens],
       by simp +decide [epParensOK]⟩

/-- Splitting text holding at least one non-whitespace character yields at
least one token. -/
theorem pySplit_ne_nil {l : List Char} (h : ∃ c ∈ l, pyIsSpace c = false) :
    pySplit l ≠ [] := by
  induction l with
  | nil =>
    obtain ⟨c, hc, _⟩ := h
    cases hc
  | cons c cs ih =>
    by_cases hc : pyIsSpace c
    · simp only [pySplit, hc, if_true]
      apply ih
      obtain ⟨d, hd, hds⟩ := h
      rcases List.mem_cons.mp hd with rfl | hd'
      · rw [hc] at hds
        cases hds
      · exact ⟨d, hd', hds⟩
    · simp [pySplit, hc]

/-- A successful token conversion has one number per token. -/
theorem parseFloatList_length :
    ∀ {ts : List String} {ns : List ℚ}, parseFloatList ts = some ns →
      ns.length = ts.length := by
  intro ts
  induction ts with
  | nil =>
    intro ns h
    simp only [parseFloatList, Option.some.injEq] at h
    simp [← h]
  | cons t ts ih =>
    intro ns h
    simp only [parseFloatList] at h
    cases hf : parseFloat t with
    | none => rw [hf] at h; cases h
    | some q =>
      rw [hf] at h
      cases hl : parseFloatList ts with
      | none => rw [hl] at h; cases h
      | some qs =>
        rw [hl] at h
        simp only [Option.some.injEq] at h
        simp [← h, ih hl]

/-- The token conversion fails exactly when some token fails to parse. -/
theorem parseFloatList_eq_none_iff (ts : List String) :
    parseFloatList ts = none ↔ ∃ t ∈ ts, parseFloat t = none := by
  induction ts with
  | nil => simp [parseFloatList]
  | cons t ts ih =>
    cases hf : parseFloat t with
    | none =>
      simp only [parseFloatList, hf]
      exact iff_of_true (by trivial) ⟨t, List.mem_cons_self t ts, hf⟩
    | some q =>
      cases hl : parseFloatList ts with
      | none =>
        simp only [parseFloatList, hf, hl]
        obtain ⟨u, hu, hun⟩ := ih.mp hl
        exact iff_of_true (by trivial) ⟨u, List.mem_cons_of_mem t hu, hun⟩
      | some qs =>
        simp only [parseFloatList, hf, hl]
        simp only [reduceCtorEq, false_iff]
        push_neg
        intro u hu
        rcases List.mem_cons.mp hu with rfl | hu'
        · simp [hf]
        · have hih := ih
          rw [hl] at hih
          simp only [reduceCtorEq, false_iff] at hih
          push_neg at hih
          exact hih u hu'

/-- C7: `validate_input` fails with the empty-input message exactly when the
text is empty or all-whitespace, fails with the parse-error message exactly
when some whitespace-separated token does not parse as a number, and on
success returns exactly the parsed numbers of the tokens in order (one per
token, no dedup, no sort); the no-valid-numbers return is unreachable. -/
theorem validate_input_spec (text : String) :
    (validate_input text = .emptyInput ↔ text.toList.all pyIsSpace = true) ∧
    (validate_input text = .parseError ↔
      (text.toList.all pyIsSpace = false ∧
        ∃ t ∈ pySplit text.toList, parseFloat t = none)) ∧
    (∀ ns, validate_input text = .ok ns ↔
      (text.toList.all pyIsSpace = false ∧
        parseFloatList (pySplit text.toList) = some ns)) ∧
    (∀ ns, validate_input text = .ok ns → ns.length = (pySplit text.toList).length) ∧
    validate_input text ≠ .noValidNumbers := by
  by_cases hall : text.toList.all pyIsSpace
  · have hv : validate_input text = .emptyInput := by
      unfold validate_input
      rw [if_pos hall]
    rw [hv]
    refine ⟨iff_of_true rfl hall, ?_, ?_, ?_, by simp⟩
    · exact ⟨fun h => absurd h (by simp), fun h => by rw [hall] at h; cases h.1⟩
    · exact fun ns => ⟨fun h => absurd h (by simp), fun h => by rw [hall] at h; cases h.1⟩
    · exact fun ns h => absurd h (by simp)
  · have hall' : text.toList.all pyIsSpace = false := by simpa using hall
    have hsplit : pySplit text.toList ≠ [] := by
      apply pySplit_ne_nil
      obtain ⟨x, hx, hxf⟩ := List.all_eq_false.mp hall'
      exact ⟨x, hx, Bool.eq_false_iff.mpr hxf⟩
    cases hp : parseFloatList (pySplit text.toList) with
    | none =>
      have hv : validate_input text = .parseError := by
        unfold validate_input
        rw [if_neg hall, hp]
      rw [hv]
      refine ⟨iff_of_false (by simp) (fun h => by rw [h] at hall'; cases hall'),
        ?_, ?_, ?_, by simp⟩
      · exact iff_of_true rfl ⟨hall', (parseFloatList_eq_none_iff _).mp hp⟩
      · exact fun ns => ⟨fun h => absurd h (by simp), fun h => absurd h.2 (by simp)⟩
      · exact fun ns h => absurd h (by simp)
    | some ns0 =>
      have hns0 : ns0 ≠ [] := by
        intro h0
        apply hsplit
        have hlen := parseFloatList_length hp
        rw [h0] at hlen
        exact List.eq_nil_of_length_eq_zero hlen.symm
      have hv : validate_input text = .ok ns0 := by
        unfold validate_input
        rw [if_neg hall, hp]
        simp only [if_neg hns0]
      rw [hv]
      refine ⟨iff_of_false (by simp) (fun h => by rw [h] at hall'; cases hall'),
        ?_, ?_, ?_, by simp⟩
      · refine ⟨fun h => absurd h (by simp), fun h => ?_⟩
        obtain ⟨t, ht, htn⟩ := h.2
        have hcontr : parseFloatList (pySplit text.toList) = none :=
          (parseFloatList_eq_none_iff _).mpr ⟨t, ht, htn⟩
        rw [hp] at hcontr
        cases hcontr
      · refine fun ns => ⟨fun h => ?_, fun h => ?_⟩
        · have hns : ns0 = ns := by simpa using h
          exact ⟨hall', by rw [hns]⟩
        · have hns : ns = ns0 := by simpa using h.2.symm
          rw [hns]
      · intro ns h
        have hns : ns = ns0 := by simpa using h.symm
        rw [hns]
        exact parseFloatList_length hp

/-- Witness for C7: concrete empty, non-numeric and numeric inputs. -/
theorem validate_input_spec_witness :
    validate_input " " = .emptyInput ∧
    validate_input "1 a" = .parseError ∧
    validate_input "12 3.5" = .ok [12, 7/2] := by
  refine ⟨?_, ?_, ?_⟩
  · exact (validate_input_spec " ").1.mpr (by decide)
  · exact (validate_input_spec "1 a").2.1.mpr
      ⟨by decide, "a", by simp +decide [pySplit], by decide⟩
  · refine ((validate_input_spec "12 3.5").2.2.1 [12, 7/2]).mpr ⟨by decide, ?_⟩
    have htl : ("12 3.5" : String).toList = ['1', '2', ' ', '3', '.', '5'] := rfl
    rw [htl]
    simp +decide [pySplit, parseFloatList, parseFloat, parseSign, digitsVal]
    norm_num

/-- C9: `split_data_for_ttest` returns two lists whose concatenation (first
followed by second) equals the input list, and the first list holds exactly
the first `⌊n/2⌋` elements. -/
theorem split_data_for_ttest_spec (data : List ℚ) :
    (split_data_for_ttest data).1 ++ (split_data_for_ttest data).2 = data ∧
    (split_data_for_ttest data).1 = data.take (data.length / 2) ∧
    (split_data_for_ttest data).1.length = data.length / 2 := by
  refine ⟨List.take_append_drop _ _, rfl, ?_⟩
  simp only [split_data_for_ttest, List.length_take]
  omega

/-- Witness for C9 at the concrete input `[1, 2, 3]`. -/
theorem split_data_for_ttest_spec_witness :
    (split_data_for_ttest [1, 2, 3]).1 ++ (split_data_for_ttest [1, 2, 3]).2 = [1, 2, 3] ∧
    (split_data_for_ttest [1, 2, 3]).1 = ([1, 2, 3] : List ℚ).take (([1, 2, 3] : List ℚ).length / 2) ∧
    (split_data_for_ttest [1, 2, 3]).1.length = ([1, 2, 3] : List ℚ).length / 2 :=
  split_data_for_ttest_spec [1, 2, 3]

/-- In a sorted list the first element is a lower bound. -/
theorem sorted_getElem_zero_le {s : List ℚ} (hs : List.Sorted (· ≤ ·) s)
    (h0 : 0 < s.length) {z : ℚ} (hz : z ∈ s) : s[0] ≤ z := by
  cases s with
  | nil => simp at h0
  | cons a t =>
    simp only [List.getElem_cons_zero]
    rcases List.mem_cons.mp hz with rfl | hz'
    · exact le_refl z
    · exact List.rel_of_sorted_cons hs z hz'

/-- In a sorted list the last element is an upper bound. -/
theorem sorted_le_getLast {s : List ℚ} (hs : List.Sorted (· ≤ ·) s)
    (hne : s ≠ []) {z : ℚ} (hz : z ∈ s) : z ≤ s.getLast hne := by
  induction s with
  | nil => simp at hz
  | cons a t ih =>
    cases t with
    | nil =>
      rcases List.mem_singleton.mp hz with rfl
      simp [List.getLast]
    | cons b u =>
      rw [List.getLast_cons (by simp : (b :: u) ≠ [])]
      rcases List.mem_cons.mp hz with rfl | hz'
      · exact List.rel_of_sorted_cons hs _ (List.getLast_mem (by simp))
      · exact ih hs.of_cons (by simp) hz'

/-- A sample holding two different values has a strictly smaller first than
last element once sorted. -/
theorem sorted_first_lt_last (data : List ℚ)
    (hd : ∃ x ∈ data, ∃ y ∈ data, x ≠ y) (h0 : 0 < (data.insertionSort (· ≤ ·)).length)
    (hl : (data.insertionSort (· ≤ ·)).length - 1 < (data.insertionSort (· ≤ ·)).length) :
    (data.insertionSort (· ≤ ·))[0] <
      (data.insertionSort (· ≤ ·))[(data.insertionSort (· ≤ ·)).length - 1] := by
  set s := data.insertionSort (· ≤ ·) with hsdef
  have hs : List.Sorted (· ≤ ·) s := List.sorted_insertionSort _ data
  have hperm : s.Perm data := List.perm_insertionSort _ data
  have hne : s ≠ [] := by
    intro h
    rw [h] at h0
    simp at h0
  have hlast : s.getLast hne = s[s.length - 1] := s.getLast_eq_getElem hne
  obtain ⟨x, hx, y, hy, hxy⟩ := hd
  have hxs : x ∈ s := hperm.mem_iff.mpr hx
  have hys : y ∈ s := hperm.mem_iff.mpr hy
  rcases lt_or_le s[0] s[s.length - 1] with h | h
  · exact h
  · exfalso
    apply hxy
    have hx1 : x ≤ s[0] := by
      have := sorted_le_getLast hs hne hxs
      rw [hlast] at this
      exact le_trans this h
    have hx2 : s[0] ≤ x := sorted_getElem_zero_le hs h0 hxs
    have hy1 : y ≤ s[0] := by
      have := sorted_le_getLast hs hne hys
      rw [hlast] at this
      exact le_trans this h
    have hy2 : s[0] ≤ y := sorted_getElem_zero_le hs h0 hys
    rw [le_antisymm hx1 hx2, le_antisymm hy1 hy2]

/-- The association-list lookup of `q_critical_values` agrees with the
spec-side table on sizes 3..10. -/
theorem q_critical_values_lookup (m : ℕ) (h3 : 3 ≤ m) (h10 : m ≤ 10) :
    q_critical_values.lookup m = some (qCriticalTable m) := by
  interval_cases m <;> rfl

/-- Evaluation of `perform_qtest` on a well-formed sample: size at least 3
and at least two distinct values. -/
theorem perform_qtest_eval (data : List ℚ) (hn : 3 ≤ data.length)
    (hd : ∃ x ∈ data, ∃ y ∈ data, x ≠ y) :
    perform_qtest data = some
      { q_statistic := qStatisticSpec data,
        q_critical := qCriticalTable (min data.length 10),
        is_outlier :=
          if qCriticalTable (min data.length 10) < qStatisticSpec data then 1
          else 0 } := by
  have hlen : (data.insertionSort (· ≤ ·)).length = data.length :=
    (List.perm_insertionSort _ data).length_eq
  have h0 : 0 < (data.insertionSort (· ≤ ·)).length := by omega
  have h1 : 1 < (data.insertionSort (· ≤ ·)).length := by omega
  have hl : (data.insertionSort (· ≤ ·)).length - 1 <
      (data.insertionSort (· ≤ ·)).length := by omega
  have hp : (data.insertionSort (· ≤ ·)).length - 2 <
      (data.insertionSort (· ≤ ·)).length := by omega
  have hlt := sorted_first_lt_last data hd h0 hl
  have hdenom :
      ¬ |(data.insertionSort (· ≤ ·))[(data.insertionSort (· ≤ ·)).length - 1] -
          (data.insertionSort (· ≤ ·))[0]| = 0 := by
    rw [abs_eq_zero, sub_eq_zero]
    intro h
    rw [h] at hlt
    exact lt_irrefl _ hlt
  have hq : qStatisticSpec data =
      max (|(data.insertionSort (· ≤ ·))[1] - (data.insertionSort (· ≤ ·))[0]| /
            |(data.insertionSort (· ≤ ·))[(data.insertionSort (· ≤ ·)).length - 1] -
              (data.insertionSort (· ≤ ·))[0]|)
          (|(data.insertionSort (· ≤ ·))[(data.insertionSort (· ≤ ·)).length - 1] -
              (data.insertionSort (· ≤ ·))[(data.insertionSort (· ≤ ·)).length - 2]| /
            |(data.insertionSort (· ≤ ·))[(data.insertionSort (· ≤ ·)).length - 1] -
              (data.insertionSort (· ≤ ·))[0]|) := by
    simp only [qStatisticSpec]
    rw [List.getElem?_eq_getElem h0, List.getElem?_eq_getElem h1,
      List.getElem?_eq_getElem hl, List.getElem?_eq_getElem hp]
    simp only [Option.getD_some]
    rw [max_div_div_right (abs_nonneg _)]
  have hcrit : q_critical_values.lookup
      (min (data.insertionSort (· ≤ ·)).length 10) =
      some (qCriticalTable (min data.length 10)) := by
    rw [hlen]
    exact q_critical_values_lookup _ (le_min hn (by norm_num)) (min_le_right _ _)
  simp only [perform_qtest]
  rw [List.getElem?_eq_getElem h0, List.getElem?_eq_getElem h1,
    List.getElem?_eq_getElem hl, List.getElem?_eq_getElem hp]
  simp only [if_neg hdenom, hcrit, hq]

/-- C4: on every sample of size at least 3 holding two distinct values,
`perform_qtest` computes the statistic
`Q = max(|x[1]−x[0]|, |x[n−1]−x[n−2]|) / |x[n−1]−x[0]|` over the
ascending-sorted sample, takes the critical value of the fixed table at
`min(n, 10)`, and flags an outlier exactly when `Q` exceeds that value. -/
theorem perform_qtest_spec (data : List ℚ) (hn : 3 ≤ data.length)
    (hd : ∃ x ∈ data, ∃ y ∈ data, x ≠ y) :
    perform_qtest data = some
      { q_statistic := qStatisticSpec data,
        q_critical := qCriticalTable (min data.length 10),
        is_outlier :=
          if qCriticalTable (min data.length 10) < qStatisticSpec data then 1
          else 0 } :=
  perform_qtest_eval data hn hd

/-- Witness for C4 at the concrete sample `[1, 2, 10]` (size 3, min ≠ max). -/
theorem perform_qtest_spec_witness :
    (3 ≤ ([1, 2, 10] : List ℚ).length) ∧
    perform_qtest [1, 2, 10] = some
      { q_statistic := qStatisticSpec [1, 2, 10],
        q_critical := qCriticalTable (min ([1, 2, 10] : List ℚ).length 10),
        is_outlier :=
          if qCriticalTable (min ([1, 2, 10] : List ℚ).length 10) <
              qStatisticSpec [1, 2, 10] then 1
          else 0 } :=
  ⟨by norm_num,
   perform_qtest_spec [1, 2, 10] (by norm_num)
     ⟨1, by norm_num, 2, by norm_num, by norm_num⟩⟩

/-- C1 (amended): `perform_qtest` returns a result on every sample of size
3..10 whose minimum and maximum differ. -/
theorem perform_qtest_total_of_nondegenerate (data : List ℚ)
    (hn : 3 ≤ data.length) (hn10 : data.length ≤ 10)
    (hd : ∃ x ∈ data, ∃ y ∈ data, x ≠ y) :
    ∃ r, perform_qtest data = some r :=
  ⟨_, perform_qtest_eval data hn hd⟩

/-- Witness for C1 at the concrete sample `[1, 2, 3]`. -/
theorem perform_qtest_total_witness :
    ∃ r, perform_qtest [1, 2, 3] = some r :=
  perform_qtest_total_of_nondegenerate [1, 2, 3] (by norm_num) (by norm_num)
    ⟨1, by norm_num, 2, by norm_num, by norm_num⟩

/-- Counterexample to C1 as stated: the constant sample `[1, 1, 1]` has size
3 but `perform_qtest` raises a `ZeroDivisionError` on it (modelled as
`none`), so no result is returned. -/
theorem perform_qtest_constant_sample :
    ([1, 1, 1] : List ℚ).length = 3 ∧ perform_qtest [1, 1, 1] = none := by
  refine ⟨rfl, ?_⟩
  norm_num [perform_qtest, List.insertionSort, List.orderedInsert]

/-- A list of nonnegative reals with a positive member has positive sum. -/
theorem list_sum_pos_of_mem_pos {l : List ℝ} (hall : ∀ a ∈ l, 0 ≤ a) {x : ℝ}
    (hx : x ∈ l) (hxpos : 0 < x) : 0 < l.sum := by
  induction l with
  | nil => simp at hx
  | cons a t ih =>
    rw [List.sum_cons]
    rcases List.mem_cons.mp hx with rfl | hx'
    · have ht : 0 ≤ t.sum :=
        List.sum_nonneg fun b hb => hall b (List.mem_cons_of_mem _ hb)
      linarith
    · have ha : 0 ≤ a := hall a (List.mem_cons_self a t)
      have := ih (fun b hb => hall b (List.mem_cons_of_mem _ hb)) hx'
      linarith

/-- C2 (amended): for every sample holding two distinct values, and whenever
the Student-t quantile the code requests is positive (true of scipy's
`t.ppf((1+level)/2, n-1)` at the levels the application uses),
`calculate_confidence_interval` returns `lower < mean < upper`.  Constant
samples (and the `n = 1` boundary) make the margin zero instead, see the
counterexample. -/
theorem calculate_confidence_interval_strict (tppf : ℝ → ℤ → ℝ)
    (data : List ℝ) (confidence_level : ℝ)
    (hd : ∃ x ∈ data, ∃ y ∈ data, x ≠ y)
    (ht : 0 < tppf ((1 + confidence_level) / 2) ((data.length : ℤ) - 1)) :
    (calculate_confidence_interval tppf data confidence_level).lower <
      (calculate_confidence_interval tppf data confidence_level).mean ∧
    (calculate_confidence_interval tppf data confidence_level).mean <
      (calculate_confidence_interval tppf data confidence_level).upper := by
  obtain ⟨x, hx, y, hy, hxy⟩ := hd
  have h2 : 2 ≤ data.length := by
    cases data with
    | nil => simp at hx
    | cons a t =>
      cases t with
      | nil =>
        have hxa := List.mem_singleton.mp hx
        have hya := List.mem_singleton.mp hy
        exact absurd (hxa.trans hya.symm) hxy
      | cons b u => simp [List.length_cons]
  have hzmem : ∃ z ∈ data, z ≠ data.sum / (data.length : ℝ) := by
    by_contra hcon
    push_neg at hcon
    exact hxy ((hcon x hx).trans (hcon y hy).symm)
  obtain ⟨z, hz, hzne⟩ := hzmem
  have hsum : 0 <
      (data.map (fun w => (w - data.sum / (data.length : ℝ)) ^ 2)).sum := by
    refine list_sum_pos_of_mem_pos ?_ (List.mem_map.mpr ⟨z, hz, rfl⟩)
      (pow_two_pos_of_ne_zero (sub_ne_zero.mpr hzne))
    intro a ha
    obtain ⟨w, _, rfl⟩ := List.mem_map.mp ha
    positivity
  have hn1 : (0 : ℝ) < (data.length : ℝ) - 1 := by
    have : (2 : ℝ) ≤ (data.length : ℝ) := by exact_mod_cast h2
    linarith
  have hvar : 0 <
      (data.map (fun w => (w - data.sum / (data.length : ℝ)) ^ 2)).sum /
        ((data.length : ℝ) - 1) := div_pos hsum hn1
  have hstd : 0 < Real.sqrt
      ((data.map (fun w => (w - data.sum / (data.length : ℝ)) ^ 2)).sum /
        ((data.length : ℝ) - 1)) := Real.sqrt_pos.mpr hvar
  have hsn : 0 < Real.sqrt (data.length : ℝ) := by
    apply Real.sqrt_pos.mpr
    have : (2 : ℝ) ≤ (data.length : ℝ) := by exact_mod_cast h2
    linarith
  have hmarg : 0 < tppf ((1 + confidence_level) / 2) ((data.length : ℤ) - 1) *
      (Real.sqrt
        ((data.map (fun w => (w - data.sum / (data.length : ℝ)) ^ 2)).sum /
          ((data.length : ℝ) - 1)) / Real.sqrt (data.length : ℝ)) :=
    mul_pos ht (div_pos hstd hsn)
  simp only [calculate_confidence_interval]
  exact ⟨sub_lt_self _ hmarg, lt_add_of_pos_right _ hmarg⟩

/-- Witness for the amended C2 at `[1, 2]` with the quantile stub
`fun _ _ => 1`. -/
theorem calculate_confidence_interval_strict_witness :
    (0 : ℝ) <
      (fun (_ : ℝ) (_ : ℤ) => (1 : ℝ)) ((1 + 683/1000) / 2)
        ((([1, 2] : List ℝ).length : ℤ) - 1) ∧
    ((calculate_confidence_interval (fun _ _ => 1) [1, 2] (683/1000)).lower <
      (calculate_confidence_interval (fun _ _ => 1) [1, 2] (683/1000)).mean ∧
    (calculate_confidence_interval (fun _ _ => 1) [1, 2] (683/1000)).mean <
      (calculate_confidence_interval (fun _ _ => 1) [1, 2] (683/1000)).upper) :=
  ⟨by norm_num,
   calculate_confidence_interval_strict (fun _ _ => 1) [1, 2] (683/1000)
     ⟨1, by norm_num, 2, by norm_num, by norm_num⟩ (by norm_num)⟩

/-- Counterexample to C2 as stated: `[5, 5]` is accepted by validation
(length ≥ 1) but has zero sample standard deviation, so the margin is zero
and `lower = mean`, refuting `lower < mean`.  The Student-t quantile is
abstracted as the constant 2; the computation multiplies it by the zero
standard error, so its value is immaterial (in Python,
`t.ppf(0.8415, 1) ≈ 1.84` is likewise finite). -/
theorem calculate_confidence_interval_not_strict :
    (1 ≤ ([5, 5] : List ℝ).length) ∧
    ¬ ((calculate_confidence_interval (fun _ _ => 2) [5, 5] (683/1000)).lower <
        (calculate_confidence_interval (fun _ _ => 2) [5, 5] (683/1000)).mean) := by
  refine ⟨by norm_num, ?_⟩
  simp only [calculate_confidence_interval, List.map_cons, List.map_nil,
    List.sum_cons, List.sum_nil, List.length_cons, List.length_nil]
  norm_num

/-- C3: `calculate_error_propagation` on variables `["x", "y"]`, values
`[2, 3]`, uncertainties `[0.1, 0.2]` and the expression
`x**2 + 2*x*y + y**2` returns function value 25 and propagated error
`√(Σ (∂f/∂vᵢ · uᵢ)²) = √((10·0.1)² + (10·0.2)²) = √5`. -/
theorem calculate_error_propagation_example :
    (calculate_error_propagation ["x", "y"] [2, 3] [1/10, 2/10] exprC3).map
        (fun r => r.function_value) = some 25 ∧
    (calculate_error_propagation ["x", "y"] [2, 3] [1/10, 2/10] exprC3).map
        (fun r => r.propagated_error) = some (Real.sqrt 5) := by
  have hval : SymExpr.evalWith (envOfBindings ["x", "y"] [2, 3]) exprC3 =
      some 25 := by
    simp +decide [exprC3, SymExpr.evalWith, envOfBindings, List.lookup]
    norm_num
  have hsq : squaredErrorTerms exprC3 (envOfBindings ["x", "y"] [2, 3])
      (["x", "y"].zip [(1:ℚ)/10, 2/10]) = some [1, 4] := by
    simp +decide [squaredErrorTerms, SymExpr.diff, SymExpr.evalWith,
      envOfBindings, List.lookup]
    norm_num
  simp only [calculate_error_propagation, hval, hsq]
  norm_num

/-- C6: `perform_ttest` in paired mode fails with the size-mismatch error
exactly when the two samples differ in length, and succeeds with
`dof = n − 1` otherwise; independent mode succeeds for any pair of lengths
with `dof = n1 + n2 − 2`; any other mode string fails with the
invalid-test-type error.  The scipy statistic computations are abstracted as
the parameters `ind` and `rel`. -/
theorem perform_ttest_spec (ind rel : List ℚ → List ℚ → ℚ × ℚ) (g1 g2 : List ℚ) :
    ((∃ r, perform_ttest ind rel g1 g2 "paired" = .ok r ∧
        r.dof = (g1.length : ℤ) - 1) ↔ g1.length = g2.length) ∧
    (perform_ttest ind rel g1 g2 "paired" = .error .sizeMismatch ↔
        g1.length ≠ g2.length) ∧
    (∃ r, perform_ttest ind rel g1 g2 "independent" = .ok r ∧
        r.dof = (g1.length : ℤ) + g2.length - 2) ∧
    (∀ ty, ty ≠ "independent" → ty ≠ "paired" →
        perform_ttest ind rel g1 g2 ty = .error .invalidTestType) := by
  unfold perform_ttest
  rw [if_neg (by decide : ¬ ("paired" : String) = "independent"),
    if_pos (rfl : ("paired" : String) = "paired"),
    if_pos (rfl : ("independent" : String) = "independent")]
  refine ⟨?_, ?_, ?_, ?_⟩
  · by_cases hlen : g1.length = g2.length
    · rw [if_neg (by omega : ¬ g1.length ≠ g2.length)]
      simp only [Except.ok.injEq]
      exact ⟨fun _ => hlen, fun _ => ⟨_, rfl, rfl⟩⟩
    · rw [if_pos hlen]
      simp only [reduceCtorEq, false_and, exists_false, false_iff]
      exact hlen
  · by_cases hlen : g1.length ≠ g2.length
    · rw [if_pos hlen]
      exact iff_of_true rfl hlen
    · rw [if_neg hlen]
      exact iff_of_false (by simp) hlen
  · exact ⟨_, rfl, rfl⟩
  · intro ty h1 h2
    rw [if_neg h1, if_neg h2]

/-- Witness for C6: paired mode with lengths 2 and 1 fails with the
size-mismatch error, and the mode string "both" fails with the
invalid-test-type error. -/
theorem perform_ttest_spec_witness :
    perform_ttest (fun _ _ => (0, 0)) (fun _ _ => (0, 0)) [1, 2] [3] "paired" =
      .error .sizeMismatch ∧
    perform_ttest (fun _ _ => (0, 0)) (fun _ _ => (0, 0)) [1, 2] [3] "both" =
      .error .invalidTestType :=
  ⟨(perform_ttest_spec (fun _ _ => (0, 0)) (fun _ _ => (0, 0)) [1, 2] [3]).2.1.mpr
      (by simp),
   (perform_ttest_spec (fun _ _ => (0, 0)) (fun _ _ => (0, 0)) [1, 2] [3]).2.2.2
      "both" (by decide) (by decide)⟩

/-- C8: the judgment line of the t-test output is labeled 有意
("significant") exactly when the p-value is strictly below 0.05, and 非有意
("not significant") otherwise. -/
theorem format_results_ttest_significance (r : TtestResult) :
    ∃ l, format_results_lines (.ttest r) "ttest" = some l ∧
      (l.getLast? = some "判定 (α=0.05): 有意" ↔ r.pvalue < 5/100) ∧
      (l.getLast? = some "判定 (α=0.05): 非有意" ↔ ¬(r.pvalue < 5/100)) := by
  refine ⟨_, rfl, ?_, ?_⟩
  · by_cases hp : r.pvalue < 5/100
    · simp only [List.getLast?_cons_cons, List.getLast?_singleton, if_pos hp]
      exact iff_of_true (by decide) hp
    · simp only [List.getLast?_cons_cons, List.getLast?_singleton, if_neg hp]
      exact iff_of_false (by decide) hp
  · by_cases hp : r.pvalue < 5/100
    · simp only [List.getLast?_cons_cons, List.getLast?_singleton, if_pos hp]
      exact iff_of_false (by decide) (not_not_intro hp)
    · simp only [List.getLast?_cons_cons, List.getLast?_singleton, if_neg hp]
      exact iff_of_true (by decide) hp

/-- Witness for C8 at a concrete result with p-value 0.01. -/
theorem format_results_ttest_significance_witness :
    ∃ l, format_results_lines
        (.ttest ⟨2, 1/100, 8, 0, 0, "independent"⟩) "ttest" = some l ∧
      (l.getLast? = some "判定 (α=0.05): 有意" ↔ (1:ℚ)/100 < 5/100) ∧
      (l.getLast? = some "判定 (α=0.05): 非有意" ↔ ¬((1:ℚ)/100 < 5/100)) :=
  format_results_ttest_significance ⟨2, 1/100, 8, 0, 0, "independent"⟩

/-- C10: `format_results` reports no invalid-kind error: any kind string
other than "ttest", "qtest" and "error_propagation" takes the trailing
confidence-interval branch, rendering the result exactly as the kind
"confidence_interval" would. -/
theorem format_results_unknown_kind (kind : String) (h1 : kind ≠ "ttest")
    (h2 : kind ≠ "qtest") (h3 : kind ≠ "error_propagation")
    (r : ConfidenceIntervalDisplay) :
    format_results_lines (.confidence_interval r) kind =
      format_results_lines (.confidence_interval r) "confidence_interval" ∧
    (format_results_lines (.confidence_interval r) kind).isSome = true := by
  unfold format_results_lines
  rw [if_neg h1, if_neg h2, if_neg h3,
    if_neg (by decide : ¬ ("confidence_interval" : String) = "ttest"),
    if_neg (by decide : ¬ ("confidence_interval" : String) = "qtest"),
    if_neg (by decide : ¬ ("confidence_interval" : String) = "error_propagation")]
  exact ⟨rfl, rfl⟩

/-- Witness for C10 at the unrecognized kind "bogus". -/
theorem format_results_unknown_kind_witness :
    format_results_lines (.confidence_interval ⟨0, 0, 0, 0, 0⟩) "bogus" =
      format_results_lines (.confidence_interval ⟨0, 0, 0, 0, 0⟩) "confidence_interval" ∧
    (format_results_lines (.confidence_interval ⟨0, 0, 0, 0, 0⟩) "bogus").isSome = true :=
  format_results_unknown_kind "bogus" (by decide) (by decide) (by decide) ⟨0, 0, 0, 0, 0⟩

end AnyTest
